import Mathlib

/-!
Verification development for the `tui_wrapper` crate (Sam9212/tui_wrapper).

The crate hosts a caller-supplied application in a terminal run loop.  The
crate root `src/lib.rs` declares only `mod tests;`, so the files `src/ui.rs`
and `src/app.rs` are not part of the compiled module tree; `src/lib.rs` is the
authoritative implementation, and `src/ui.rs` holds an orphaned variant of the
same `UI` type whose unticked run loop differs (it forwards every event to the
application instead of only key events).  Both loops are embedded below.

Modelling conventions:
* `Duration` and `Instant` are modelled as `Nat` (abstract time units);
  `Duration::checked_sub` becomes an `Option Nat` returning `none` on
  underflow, exactly as in the std library.
* The application traits `App` / `Ticked` become records of pure state
  transformers over an application state type `σ` (Rust `&mut self` methods
  become `σ → σ` functions).
* Terminal and input I/O are modelled by an explicit environment: each loop
  iteration consumes one environment step carrying the results the OS would
  return (draw outcome, poll outcome, event read, clock readings).  Running
  out of environment steps before the application closes yields the artificial
  status `outOfFuel` (the real loop would simply keep running).
* Calls into the application are recorded observationally (draw count,
  dispatched events, read events, tick flags) so that claims about which
  callbacks fire can be stated; the source performs the same calls without
  recording them.
* `panic!` is modelled as a dedicated result status carrying the diagnostic
  string; terminal side effects (raw mode, alternate screen, mouse capture,
  cursor visibility) are modelled by an explicit `TermState` threaded through
  acquisition and release.
-/

namespace TuiWrapper

/-- An opaque I/O error value (`std::io::Error` is only ever propagated, never
inspected, by the crate; a `Nat` code suffices to track identity). -/
abbrev IOErr := Nat

/-- Model of `crossterm::event::KeyEvent`: the crate never inspects its
fields, so a single code suffices. -/
structure KeyEvent where
  code : Nat
deriving DecidableEq, Repr

/-- Model of `crossterm::event::Event`: a key event, or one of the non-key
variants (resize, mouse) that the crate's filtering distinguishes. -/
inductive Event where
  | key : KeyEvent → Event
  | resize : Nat → Nat → Event
  | mouse : Nat → Nat → Event
deriving DecidableEq, Repr

/-- The `App` trait of `src/lib.rs`: `draw` and `on_input_received` mutate the
application (state transformers), `is_closed` reads the termination flag. -/
structure App (σ : Type) where
  draw : σ → σ
  on_input_received : σ → KeyEvent → σ
  is_closed : σ → Bool

/-- The `Ticked` trait of `src/lib.rs`. -/
structure Ticked (σ : Type) where
  on_tick : σ → σ

/-- The `UI` struct of `src/lib.rs`: the terminal handle is modelled
externally (see `TermState`), leaving the optional tick rate and the hosted
application state. -/
structure UI (σ : Type) where
  tick_rate : Option Nat
  app : σ
deriving DecidableEq, Repr

/-- Terminal modes observable process-wide, as toggled by
`enable_raw_mode` / `EnableMouseCapture` / `EnterAlternateScreen` and their
inverses, plus cursor visibility. -/
structure TermState where
  raw_mode : Bool
  mouse_capture : Bool
  alternate_screen : Bool
  cursor_visible : Bool
deriving DecidableEq, Repr

/-- Which steps of terminal acquisition succeed: `enable_raw_mode()`, the
`execute!(stdout, EnableMouseCapture, EnterAlternateScreen)` flush, and
`Terminal::new(backend)`. -/
structure AcquireEnv where
  raw_ok : Bool
  exec_ok : Bool
  term_ok : Bool
deriving DecidableEq, Repr

/-- Which steps of `destroy_app` succeed: `disable_raw_mode()`, the
`execute!(.., DisableMouseCapture, LeaveAlternateScreen)` flush, and
`show_cursor()`. -/
structure ReleaseEnv where
  raw_ok : Bool
  exec_ok : Bool
  cursor_ok : Bool
deriving DecidableEq, Repr

/-- Error value produced when `enable_raw_mode` / `disable_raw_mode` fails. -/
def raw_err : IOErr := 0

/-- Error value produced when an `execute!` flush fails. -/
def exec_err : IOErr := 1

/-- Error value produced when `Terminal::new` fails. -/
def term_err : IOErr := 2

/-- Error value produced when `show_cursor` fails. -/
def cursor_err : IOErr := 3

/-- Model of `UI::new` (src/lib.rs): enable raw mode, then enable mouse
capture and enter the alternate screen in one flush, then build the terminal.
Each step either applies its effect to the `TermState` or fails, leaving the
effects already applied by earlier steps in place (no rollback). -/
def UI.new (app : σ) (env : AcquireEnv) (ts : TermState) :
    TermState × Except IOErr (UI σ) :=
  if env.raw_ok then
    let ts1 := { ts with raw_mode := true }
    if env.exec_ok then
      let ts2 := { ts1 with mouse_capture := true, alternate_screen := true }
      if env.term_ok then
        (ts2, .ok { tick_rate := none, app := app })
      else
        (ts2, .error term_err)
    else
      (ts1, .error exec_err)
  else
    (ts, .error raw_err)

/-- Model of `UI::new_ticked` (src/lib.rs): identical terminal acquisition,
but stores `Some(tick_rate)`. -/
def UI.new_ticked (app : σ) (tick_rate : Nat) (env : AcquireEnv) (ts : TermState) :
    TermState × Except IOErr (UI σ) :=
  if env.raw_ok then
    let ts1 := { ts with raw_mode := true }
    if env.exec_ok then
      let ts2 := { ts1 with mouse_capture := true, alternate_screen := true }
      if env.term_ok then
        (ts2, .ok { tick_rate := some tick_rate, app := app })
      else
        (ts2, .error term_err)
    else
      (ts1, .error exec_err)
  else
    (ts, .error raw_err)

/-- Model of `UI::destroy_app` (src/lib.rs): disable raw mode, then disable
mouse capture and leave the alternate screen in one flush, then show the
cursor.  The `UI` value is returned untouched (the source only writes to
`self.terminal`). -/
def UI.destroy_app (ui : UI σ) (env : ReleaseEnv) (ts : TermState) :
    UI σ × TermState × Except IOErr Unit :=
  if env.raw_ok then
    let ts1 := { ts with raw_mode := false }
    if env.exec_ok then
      let ts2 := { ts1 with mouse_capture := false, alternate_screen := false }
      if env.cursor_ok then
        (ui, { ts2 with cursor_visible := true }, .ok ())
      else
        (ui, ts2, .error cursor_err)
    else
      (ui, ts1, .error exec_err)
  else
    (ui, ts, .error raw_err)

/-- The diagnostic emitted by the mode-mismatch guard before aborting
(`panic!` message in both `run` and `run_ticked`). -/
def mismatch_diag : String :=
  "`new`/`new_ticked` not used with respective `run`/`run_ticked` pair"

/-- Result status of a run operation. -/
inductive Status where
  | ok
  | ioError : IOErr → Status
  | panicked : String → Status
  | outOfFuel
deriving DecidableEq, Repr

deriving instance DecidableEq for Except

/-- Environment for one iteration of the unticked loop: the outcome of
`terminal.draw(..)` and of the blocking `event::read()`. -/
structure StepU where
  drawRes : Except IOErr Unit
  readRes : Except IOErr Event
deriving DecidableEq, Repr

/-- Observable outcome of the unticked loop: status, final application state,
number of `draw` calls, key events dispatched to `on_input_received`, and all
events successfully returned by `event::read()`. -/
structure LoopOutU (σ : Type) where
  status : Status
  app : σ
  draws : Nat
  dispatched : List KeyEvent
  reads : List Event
deriving DecidableEq, Repr

/-- The loop body of `UI::run` (src/lib.rs):
`while !is_closed { draw?; if let Event::Key(e) = read()? { on_input_received(e) } }`.
On a draw or read error the loop returns that error at once; key events are
dispatched, non-key events are consumed without dispatch. -/
def runLoopU (a : App σ) (steps : List StepU) (s : σ) : LoopOutU σ :=
  if a.is_closed s then ⟨.ok, s, 0, [], []⟩
  else
    match steps with
    | [] => ⟨.outOfFuel, s, 0, [], []⟩
    | step :: rest =>
      match step.drawRes with
      | .error e => ⟨.ioError e, s, 0, [], []⟩
      | .ok _ =>
        let s1 := a.draw s
        match step.readRes with
        | .error e => ⟨.ioError e, s1, 1, [], []⟩
        | .ok ev =>
          match ev with
          | .key k =>
            let out := runLoopU a rest (a.on_input_received s1 k)
            ⟨out.status, out.app, out.draws + 1, k :: out.dispatched,
              Event.key k :: out.reads⟩
          | _ =>
            let out := runLoopU a rest s1
            ⟨out.status, out.app, out.draws + 1, out.dispatched,
              ev :: out.reads⟩

/-- Outcome of a run operation at the `UI` level: the final `UI` value carries
the (possibly mutated) application and the untouched `tick_rate`. -/
structure RunOut (σ : Type) where
  status : Status
  ui : UI σ
  draws : Nat
  dispatched : List KeyEvent
  reads : List Event
deriving DecidableEq, Repr

/-- Model of `UI::run` (src/lib.rs): if the controller was built with a tick
rate, print the diagnostic and `panic!` before touching the loop; otherwise
run the unticked loop. -/
def UI.run (ui : UI σ) (a : App σ) (steps : List StepU) : RunOut σ :=
  match ui.tick_rate with
  | some _ => ⟨.panicked mismatch_diag, ui, 0, [], []⟩
  | none =>
    let out := runLoopU a steps ui.app
    ⟨out.status, { ui with app := out.app }, out.draws, out.dispatched, out.reads⟩

/-- Model of `Duration::checked_sub`: `none` when the subtrahend exceeds the
minuend (the underflow case), otherwise the difference. -/
def Duration.checked_sub (a b : Nat) : Option Nat :=
  if b ≤ a then some (a - b) else none

/-- The timeout computation of `run_ticked` (src/lib.rs):
`tick_rate.checked_sub(last_tick.elapsed()).unwrap_or(Duration::from_secs(0))`. -/
def poll_timeout (tr elapsed : Nat) : Nat :=
  (Duration.checked_sub tr elapsed).getD 0

/-- Environment for one iteration of the ticked loop, in source order: the
outcome of `terminal.draw(..)`, the clock reading at the first
`last_tick.elapsed()` (timeout computation), the outcome of
`event::poll(timeout)`, the outcome of `event::read()` (consulted only when
the poll reported an event), the clock reading at the second
`last_tick.elapsed()` (tick check), and the `Instant::now()` value used to
reset `last_tick` when a tick fires.  Clock readings are absolute. -/
structure StepT where
  drawRes : Except IOErr Unit
  now1 : Nat
  pollRes : Except IOErr Bool
  readRes : Except IOErr Event
  now2 : Nat
  now3 : Nat
deriving DecidableEq, Repr

/-- Loop-carried state of `run_ticked`: the application and the absolute time
recorded in `last_tick`. -/
structure TState (σ : Type) where
  app : σ
  last_tick : Nat
deriving DecidableEq, Repr

/-- Observational record of one completed ticked iteration: the elapsed value
used in the timeout computation, the timeout passed to `event::poll`, the key
event dispatched (if any), and whether `on_tick` fired. -/
structure IterLog where
  elapsed1 : Nat
  timeout : Nat
  dispatched : Option KeyEvent
  ticked : Bool
deriving DecidableEq, Repr

/-- One iteration of the `run_ticked` loop body (src/lib.rs): draw, compute
the clamped timeout, poll, read-and-dispatch on a key event, then fire
`on_tick` and reset `last_tick` when the elapsed time has reached the tick
rate.  The tick check runs regardless of the poll outcome. -/
def stepT (a : App σ) (tk : Ticked σ) (tr : Nat) (st : TState σ) (env : StepT) :
    Except IOErr (TState σ × IterLog) :=
  match env.drawRes with
  | .error e => .error e
  | .ok _ =>
    let s1 := a.draw st.app
    let elapsed1 := env.now1 - st.last_tick
    let timeout := poll_timeout tr elapsed1
    let finish : σ → Option KeyEvent → Except IOErr (TState σ × IterLog) :=
      fun s2 disp =>
        if tr ≤ env.now2 - st.last_tick then
          .ok (⟨tk.on_tick s2, env.now3⟩, ⟨elapsed1, timeout, disp, true⟩)
        else
          .ok (⟨s2, st.last_tick⟩, ⟨elapsed1, timeout, disp, false⟩)
    match env.pollRes with
    | .error e => .error e
    | .ok true =>
      match env.readRes with
      | .error e => .error e
      | .ok ev =>
        match ev with
        | .key k => finish (a.on_input_received s1 k) (some k)
        | _ => finish s1 none
    | .ok false => finish s1 none

/-- The loop of `run_ticked` (src/lib.rs): iterate `stepT` while the
application is not closed, collecting one `IterLog` per completed iteration
and stopping at the first I/O error. -/
def runLoopT (a : App σ) (tk : Ticked σ) (tr : Nat) (steps : List StepT)
    (st : TState σ) : Status × TState σ × List IterLog :=
  if a.is_closed st.app then (.ok, st, [])
  else
    match steps with
    | [] => (.outOfFuel, st, [])
    | env :: rest =>
      match stepT a tk tr st env with
      | .error e => (.ioError e, st, [])
      | .ok (st', log) =>
        let out := runLoopT a tk tr rest st'
        (out.1, out.2.1, log :: out.2.2)

/-- Outcome of `run_ticked` at the `UI` level. -/
structure TickedOut (σ : Type) where
  status : Status
  ui : UI σ
  logs : List IterLog
deriving DecidableEq, Repr

/-- Model of `UI::run_ticked` (src/lib.rs): if the controller was built
without a tick rate, print the diagnostic and `panic!` before initialising
`last_tick` or entering the loop; otherwise set `last_tick := Instant::now()`
(the value `t0`) and run the ticked loop. -/
def UI.run_ticked (ui : UI σ) (a : App σ) (tk : Ticked σ) (t0 : Nat)
    (steps : List StepT) : TickedOut σ :=
  match ui.tick_rate with
  | none => ⟨.panicked mismatch_diag, ui, []⟩
  | some tr =>
    let out := runLoopT a tk tr steps ⟨ui.app, t0⟩
    ⟨out.1, { ui with app := out.2.1.app }, out.2.2⟩

/-- The `App` contract as the orphaned `src/ui.rs` run loop actually uses it:
its `run` passes the whole `Event` returned by `event::read()` to
`on_input_received`, so the handler consumes events, not key events. -/
structure AppRs (σ : Type) where
  draw : σ → σ
  on_input_received : σ → Event → σ
  is_closed : σ → Bool

/-- Observable outcome of the `src/ui.rs` unticked loop: as `LoopOutU`, but
the dispatched list holds full events since every read event is forwarded. -/
structure LoopOutRs (σ : Type) where
  status : Status
  app : σ
  draws : Nat
  dispatched : List Event
  reads : List Event
deriving DecidableEq, Repr

namespace UiRs

/-- The loop body of `UI::run` in src/ui.rs:
`while !is_closed { draw?; let event = read()?; on_input_received(event) }`.
Every successfully read event is dispatched, with no key-event filter. -/
def runLoopRs (a : AppRs σ) (steps : List StepU) (s : σ) : LoopOutRs σ :=
  if a.is_closed s then ⟨.ok, s, 0, [], []⟩
  else
    match steps with
    | [] => ⟨.outOfFuel, s, 0, [], []⟩
    | step :: rest =>
      match step.drawRes with
      | .error e => ⟨.ioError e, s, 0, [], []⟩
      | .ok _ =>
        let s1 := a.draw s
        match step.readRes with
        | .error e => ⟨.ioError e, s1, 1, [], []⟩
        | .ok ev =>
          let out := runLoopRs a rest (a.on_input_received s1 ev)
          ⟨out.status, out.app, out.draws + 1, ev :: out.dispatched,
            ev :: out.reads⟩

/-- Outcome of the src/ui.rs `run` at the `UI` level. -/
structure RunOutRs (σ : Type) where
  status : Status
  ui : UI σ
  draws : Nat
  dispatched : List Event
  reads : List Event
deriving DecidableEq, Repr

/-- Model of `UI::run` in src/ui.rs: the same mode-mismatch guard as the
src/lib.rs version, then the unfiltered loop. -/
def run (ui : UI σ) (a : AppRs σ) (steps : List StepU) : RunOutRs σ :=
  match ui.tick_rate with
  | some _ => ⟨.panicked mismatch_diag, ui, 0, [], []⟩
  | none =>
    let out := runLoopRs a steps ui.app
    ⟨out.status, { ui with app := out.app }, out.draws, out.dispatched, out.reads⟩

end UiRs

/-- Key events of an event list, in order: the filter `run` (src/lib.rs)
applies with `if let Event::Key(event) = event::read()?`. -/
def keyEventsOf : List Event → List KeyEvent :=
  List.filterMap fun ev =>
    match ev with
    | .key k => some k
    | _ => none

/-- Concrete application over `Nat` used to instantiate theorems: draw
increments, input adds ten times the key code, the app closes at 100. -/
def cApp : App Nat :=
  ⟨fun s => s + 1, fun s k => s + 10 * k.code, fun s => decide (100 ≤ s)⟩

/-- Concrete tick behaviour for `cApp`: a tick adds 1000. -/
def cTicked : Ticked Nat :=
  ⟨fun s => s + 1000⟩

/-- The pre-acquisition terminal state: cooked mode, primary screen, no mouse
reporting, visible cursor. -/
def ts0 : TermState :=
  ⟨false, false, false, true⟩

/-- Concrete application over `Bool` (the closed flag): the first draw closes
it, input leaves the state unchanged. -/
def ceApp : App Bool :=
  ⟨fun _ => true, fun s _ => s, fun s => s⟩

/-- The `src/ui.rs` counterpart of `ceApp`: same draw, same closed flag, and
an input handler agreeing with `ceApp`'s on key events. -/
def ceAppRs : AppRs Bool :=
  ⟨fun _ => true, fun s _ => s, fun s => s⟩

/-- Concrete unticked controller hosting the `Bool` application. -/
def ceUi : UI Bool :=
  ⟨none, false⟩

/-- Input environment delivering a single resize event. -/
def ceSteps : List StepU :=
  [⟨.ok (), .ok (.resize 1 1)⟩]

/-- Input environment delivering a single key event. -/
def ceKeySteps : List StepU :=
  [⟨.ok (), .ok (.key ⟨3⟩)⟩]

/-!
Theorems.  Each claim of the specification is settled by one theorem below.
-/

/-- C1: invoking the run operation mismatched to the construction mode
(`run` on a controller with `tick_rate = Some _`, or `run_ticked` on a
controller with `tick_rate = None`) aborts with the documented diagnostic and
performs no render, no input dispatch, and no tick: the outcome is the
`panicked` status carrying the diagnostic, with the controller unchanged,
zero draws, and empty dispatch/read/log lists. -/
theorem run_mode_mismatch_aborts (σ : Type) (a : App σ) (tk : Ticked σ)
    (ui : UI σ) (steps : List StepU) (tsteps : List StepT) (t0 : Nat) :
    (ui.tick_rate.isSome = true →
      UI.run ui a steps = ⟨.panicked mismatch_diag, ui, 0, [], []⟩) ∧
    (ui.tick_rate = none →
      UI.run_ticked ui a tk t0 tsteps = ⟨.panicked mismatch_diag, ui, []⟩) := by
  constructor
  · intro h
    rcases ui with ⟨tr, app⟩
    cases tr with
    | none => simp [Option.isSome] at h
    | some d => rfl
  · intro h
    rcases ui with ⟨tr, app⟩
    cases tr with
    | none => rfl
    | some d => simp at h

/-- Witness for C1 at concrete inputs: a ticked-constructed controller run
with `run`, and an untick-constructed controller run with `run_ticked`. -/
theorem run_mode_mismatch_aborts_witness :
    UI.run ⟨some 5, 0⟩ cApp [] = ⟨.panicked mismatch_diag, ⟨some 5, 0⟩, 0, [], []⟩ ∧
    UI.run_ticked ⟨none, 0⟩ cApp cTicked 0 [] = ⟨.panicked mismatch_diag, ⟨none, 0⟩, []⟩ :=
  ⟨(run_mode_mismatch_aborts Nat cApp cTicked ⟨some 5, 0⟩ [] [] 0).1 rfl,
   (run_mode_mismatch_aborts Nat cApp cTicked ⟨none, 0⟩ [] [] 0).2 rfl⟩

/-- C5: a correctly constructed unticked controller whose application is
already closed returns success from `run` immediately: no draw, no read, no
dispatch, application untouched. -/
theorem run_closed_app_returns_immediately (σ : Type) (a : App σ) (ui : UI σ)
    (steps : List StepU) (hmode : ui.tick_rate = none)
    (hclosed : a.is_closed ui.app = true) :
    UI.run ui a steps = ⟨.ok, ui, 0, [], []⟩ := by
  rcases ui with ⟨tr, app⟩
  simp only at hmode hclosed
  subst hmode
  have hloop : runLoopU a steps app = ⟨.ok, app, 0, [], []⟩ := by
    rw [runLoopU.eq_def]
    simp [hclosed]
  simp [UI.run, hloop]

/-- Witness for C5: `cApp` is closed at state 200, so `run` on a fresh
unticked controller returns at once even though an input step is queued. -/
theorem run_closed_app_returns_immediately_witness :
    UI.run ⟨none, 200⟩ cApp ceKeySteps = ⟨.ok, ⟨none, 200⟩, 0, [], []⟩ :=
  run_closed_app_returns_immediately Nat cApp ⟨none, 200⟩ ceKeySteps rfl (by decide)

/-- Auxiliary: along the src/lib.rs unticked loop the dispatched key events
are exactly the key events among the events read, in order. -/
theorem runLoopU_dispatched_keys (a : App σ) : ∀ (steps : List StepU) (s : σ),
    (runLoopU a steps s).dispatched = keyEventsOf (runLoopU a steps s).reads := by
  intro steps
  induction steps with
  | nil =>
    intro s
    rw [runLoopU.eq_def]
    cases h : a.is_closed s <;> simp [h, keyEventsOf]
  | cons step rest ih =>
    intro s
    rcases step with ⟨dr, rr⟩
    rw [runLoopU.eq_def]
    cases h : a.is_closed s with
    | true => simp [h, keyEventsOf]
    | false =>
      simp only [h, Bool.false_eq_true, if_false]
      cases dr with
      | error e => simp [keyEventsOf]
      | ok u =>
        cases rr with
        | error e => simp [keyEventsOf]
        | ok ev =>
          cases ev with
          | key k =>
            have hrec := ih (a.on_input_received (a.draw s) k)
            simp only [keyEventsOf, List.filterMap_cons] at hrec ⊢
            simp [hrec]
          | resize w ht =>
            have hrec := ih (a.draw s)
            simp only [keyEventsOf, List.filterMap_cons] at hrec ⊢
            simp [hrec]
          | mouse x y =>
            have hrec := ih (a.draw s)
            simp only [keyEventsOf, List.filterMap_cons] at hrec ⊢
            simp [hrec]

/-- C2: in unticked mode, `run` forwards an event to `on_input_received` if
and only if it is a key event: the dispatched list equals the key events of
the list of all events returned by the blocking read, in order. -/
theorem run_forwards_exactly_key_events (σ : Type) (ui : UI σ) (a : App σ)
    (steps : List StepU) :
    (UI.run ui a steps).dispatched = keyEventsOf (UI.run ui a steps).reads := by
  rcases ui with ⟨tr, app⟩
  cases tr with
  | some d => simp [UI.run, keyEventsOf]
  | none => simpa [UI.run] using runLoopU_dispatched_keys a steps app

/-- Auxiliary: if the src/lib.rs unticked loop reports success, the
application's closed flag holds at the final state. -/
theorem runLoopU_ok_imp_closed (a : App σ) : ∀ (steps : List StepU) (s : σ),
    (runLoopU a steps s).status = Status.ok →
    a.is_closed (runLoopU a steps s).app = true := by
  intro steps
  induction steps with
  | nil =>
    intro s
    rw [runLoopU.eq_def]
    cases h : a.is_closed s <;> simp [h]
  | cons step rest ih =>
    intro s
    rcases step with ⟨dr, rr⟩
    rw [runLoopU.eq_def]
    cases h : a.is_closed s with
    | true => simp [h]
    | false =>
      simp only [h, Bool.false_eq_true, if_false]
      cases dr with
      | error e => simp
      | ok u =>
        cases rr with
        | error e => simp
        | ok ev =>
          cases ev with
          | key k => simpa using ih (a.on_input_received (a.draw s) k)
          | resize w ht => simpa using ih (a.draw s)
          | mouse x y => simpa using ih (a.draw s)

/-- Auxiliary: an I/O-error outcome of the src/lib.rs unticked loop carries an
error produced verbatim by some draw or read of the environment. -/
theorem runLoopU_error_source (a : App σ) : ∀ (steps : List StepU) (s : σ)
    (e : IOErr), (runLoopU a steps s).status = Status.ioError e →
    ∃ step ∈ steps, step.drawRes = Except.error e ∨ step.readRes = Except.error e := by
  intro steps
  induction steps with
  | nil =>
    intro s e
    rw [runLoopU.eq_def]
    cases h : a.is_closed s <;> simp [h]
  | cons step rest ih =>
    intro s e
    rcases step with ⟨dr, rr⟩
    rw [runLoopU.eq_def]
    cases h : a.is_closed s with
    | true => simp [h]
    | false =>
      simp only [h, Bool.false_eq_true, if_false]
      cases dr with
      | error e' =>
        intro hst
        simp only [LoopOutU.status] at hst
        cases hst
        exact ⟨⟨Except.error e, rr⟩, by simp, Or.inl rfl⟩
      | ok u =>
        cases rr with
        | error e' =>
          intro hst
          simp only [LoopOutU.status] at hst
          cases hst
          exact ⟨⟨Except.ok u, Except.error e⟩, by simp, Or.inr rfl⟩
        | ok ev =>
          have step_mem : ∀ st ∈ rest,
              (st ∈ (⟨Except.ok u, Except.ok ev⟩ : StepU) :: rest) := by
            intro st hst
            exact List.mem_cons_of_mem _ hst
          cases ev with
          | key k =>
            intro hst
            obtain ⟨st, hmem, hor⟩ := ih (a.on_input_received (a.draw s) k) e (by simpa using hst)
            exact ⟨st, step_mem st hmem, hor⟩
          | resize w ht =>
            intro hst
            obtain ⟨st, hmem, hor⟩ := ih (a.draw s) e (by simpa using hst)
            exact ⟨st, step_mem st hmem, hor⟩
          | mouse x y =>
            intro hst
            obtain ⟨st, hmem, hor⟩ := ih (a.draw s) e (by simpa using hst)
            exact ⟨st, step_mem st hmem, hor⟩

/-- Auxiliary: the src/lib.rs unticked loop never produces a panicked status
(the abort can only come from the mode guard, which precedes the loop). -/
theorem runLoopU_never_panics (a : App σ) : ∀ (steps : List StepU) (s : σ)
    (d : String), (runLoopU a steps s).status ≠ Status.panicked d := by
  intro steps
  induction steps with
  | nil =>
    intro s d
    rw [runLoopU.eq_def]
    cases h : a.is_closed s <;> simp [h]
  | cons step rest ih =>
    intro s d
    rcases step with ⟨dr, rr⟩
    rw [runLoopU.eq_def]
    cases h : a.is_closed s with
    | true => simp [h]
    | false =>
      simp only [h, Bool.false_eq_true, if_false]
      cases dr with
      | error e => simp
      | ok u =>
        cases rr with
        | error e => simp
        | ok ev =>
          cases ev with
          | key k => simpa using ih (a.on_input_received (a.draw s) k) d
          | resize w ht => simpa using ih (a.draw s) d
          | mouse x y => simpa using ih (a.draw s) d

/-- C6: on a correctly constructed unticked controller, `run` returns success
exactly when the closed flag becomes true (a success outcome ends with the
application closed), returns the underlying I/O error unchanged exactly when a
render or blocking read fails (an error outcome is an error the environment
produced at some draw or read, propagated verbatim with no retry), and never
aborts. -/
theorem run_success_and_error_propagation (σ : Type) (ui : UI σ) (a : App σ)
    (steps : List StepU) (hmode : ui.tick_rate = none) :
    ((UI.run ui a steps).status = Status.ok →
      a.is_closed (UI.run ui a steps).ui.app = true) ∧
    (∀ e, (UI.run ui a steps).status = Status.ioError e →
      ∃ step ∈ steps, step.drawRes = Except.error e ∨ step.readRes = Except.error e) ∧
    (∀ d, (UI.run ui a steps).status ≠ Status.panicked d) := by
  rcases ui with ⟨tr, app⟩
  simp only at hmode
  subst hmode
  refine ⟨?_, ?_, ?_⟩
  · intro h
    simpa [UI.run] using runLoopU_ok_imp_closed a steps app (by simpa [UI.run] using h)
  · intro e h
    exact runLoopU_error_source a steps app e (by simpa [UI.run] using h)
  · intro d h
    have hne := runLoopU_never_panics a steps app d
    simp [UI.run] at h
    exact hne h

/-- Witness for C6: on an environment whose first draw fails with error 9,
`run` reports exactly that error and it is found in the environment. -/
theorem run_success_and_error_propagation_witness :
    ∃ step ∈ [(⟨Except.error 9, Except.ok (Event.key ⟨1⟩)⟩ : StepU)],
      step.drawRes = Except.error 9 ∨ step.readRes = Except.error 9 :=
  (run_success_and_error_propagation Nat ⟨none, 0⟩ cApp
    [⟨Except.error 9, Except.ok (Event.key ⟨1⟩)⟩] rfl).2.1 9 (by decide)

/-- Auxiliary: the clamped timeout computation agrees with truncated natural
subtraction; in particular it is zero whenever the elapsed time reaches the
tick rate, and `checked_sub` never underflows observably. -/
theorem poll_timeout_eq_sub (tr e : Nat) : poll_timeout tr e = tr - e := by
  unfold poll_timeout Duration.checked_sub
  split
  · rfl
  · rename_i h
    simp [Nat.sub_eq_zero_of_le (Nat.le_of_lt (Nat.lt_of_not_le h))]

/-- Auxiliary: a successful ticked iteration records as its timeout exactly
the clamped computation `poll_timeout` applied to the recorded elapsed time,
which is the first clock reading minus `last_tick`. -/
theorem stepT_log_timeout (a : App σ) (tk : Ticked σ) (tr : Nat) (st : TState σ)
    (env : StepT) (st' : TState σ) (log : IterLog)
    (h : stepT a tk tr st env = Except.ok (st', log)) :
    log.timeout = poll_timeout tr log.elapsed1 ∧
    log.elapsed1 = env.now1 - st.last_tick := by
  rcases env with ⟨dr, n1, pr, rr, n2, n3⟩
  cases dr with
  | error e => simp [stepT] at h
  | ok u =>
    cases pr with
    | error e => simp [stepT] at h
    | ok b =>
      cases b with
      | false =>
        simp only [stepT] at h
        split at h <;> (cases h; exact ⟨rfl, rfl⟩)
      | true =>
        cases rr with
        | error e => simp [stepT] at h
        | ok ev =>
          cases ev with
          | key k =>
            simp only [stepT] at h
            split at h <;> (cases h; exact ⟨rfl, rfl⟩)
          | resize w ht =>
            simp only [stepT] at h
            split at h <;> (cases h; exact ⟨rfl, rfl⟩)
          | mouse x y =>
            simp only [stepT] at h
            split at h <;> (cases h; exact ⟨rfl, rfl⟩)

/-- Auxiliary: every iteration log of the ticked loop records a timeout equal
to the clamped computation on its elapsed time. -/
theorem runLoopT_log_timeout (a : App σ) (tk : Ticked σ) (tr : Nat) :
    ∀ (steps : List StepT) (st : TState σ) (log : IterLog),
      log ∈ (runLoopT a tk tr steps st).2.2 →
      log.timeout = poll_timeout tr log.elapsed1 := by
  intro steps
  induction steps with
  | nil =>
    intro st log
    rw [runLoopT.eq_def]
    cases h : a.is_closed st.app <;> simp [h]
  | cons env rest ih =>
    intro st log
    rw [runLoopT.eq_def]
    cases h : a.is_closed st.app with
    | true => simp [h]
    | false =>
      simp only [h, Bool.false_eq_true, if_false]
      cases hs : stepT a tk tr st env with
      | error e => simp
      | ok pr =>
        rcases pr with ⟨st', lg⟩
        intro hmem
        simp only [List.mem_cons] at hmem
        rcases hmem with h1 | h2
        · subst h1
          exact (stepT_log_timeout a tk tr st env st' log hs).1
        · exact ih st' log h2

/-- C4: in every iteration of `run_ticked`, the poll timeout equals the tick
rate minus the elapsed time since `last_tick`, clamped at zero: it is zero
whenever the elapsed time reaches or exceeds the interval, so the subtraction
never underflows. -/
theorem run_ticked_timeout_clamped (σ : Type) (ui : UI σ) (a : App σ)
    (tk : Ticked σ) (t0 : Nat) (steps : List StepT) (tr : Nat)
    (hmode : ui.tick_rate = some tr) :
    ∀ log ∈ (UI.run_ticked ui a tk t0 steps).logs,
      log.timeout = tr - log.elapsed1 ∧ (tr ≤ log.elapsed1 → log.timeout = 0) := by
  rcases ui with ⟨trate, app⟩
  simp only at hmode
  subst hmode
  intro log hmem
  simp only [UI.run_ticked, TickedOut.logs] at hmem
  have ht := runLoopT_log_timeout a tk tr steps ⟨app, t0⟩ log hmem
  rw [poll_timeout_eq_sub] at ht
  refine ⟨ht, fun hle => ?_⟩
  rw [ht]
  exact Nat.sub_eq_zero_of_le hle

/-- Witness for C4: a concrete ticked run (tick rate 5, one iteration with
elapsed time 3) whose single log obeys the clamped-timeout equation. -/
theorem run_ticked_timeout_clamped_witness :
    (⟨3, 2, none, true⟩ : IterLog).timeout = 5 - (⟨3, 2, none, true⟩ : IterLog).elapsed1 ∧
    (5 ≤ (⟨3, 2, none, true⟩ : IterLog).elapsed1 →
      (⟨3, 2, none, true⟩ : IterLog).timeout = 0) :=
  run_ticked_timeout_clamped Nat ⟨some 5, 0⟩ cApp cTicked 100
    [⟨Except.ok (), 103, Except.ok false, Except.ok (Event.key ⟨1⟩), 106, 107⟩] 5 rfl
    ⟨3, 2, none, true⟩ (by decide)

/-- C3: in a ticked iteration, after the poll step the tick check fires if and
only if the time elapsed since `last_tick` (at the second clock reading) has
reached the interval — irrespective of whether the poll produced an event,
since the poll outcome `env.pollRes` is universally quantified; when it fires,
`on_tick` is invoked on the post-dispatch state and `last_tick` is reset to
the current time, and when it does not fire `last_tick` is preserved. -/
theorem run_ticked_tick_fires_when_due (σ : Type) (a : App σ) (tk : Ticked σ)
    (tr : Nat) (st : TState σ) (env : StepT) (st' : TState σ) (log : IterLog)
    (h : stepT a tk tr st env = Except.ok (st', log)) :
    (log.ticked = true ↔ tr ≤ env.now2 - st.last_tick) ∧
    (log.ticked = true → st'.last_tick = env.now3 ∧ ∃ s2, st'.app = tk.on_tick s2) ∧
    (log.ticked = false → st'.last_tick = st.last_tick) := by
  rcases env with ⟨dr, n1, pr, rr, n2, n3⟩
  cases dr with
  | error e => simp [stepT] at h
  | ok u =>
    cases pr with
    | error e => simp [stepT] at h
    | ok b =>
      cases b with
      | false =>
        simp only [stepT] at h
        split at h
        · cases h
          rename_i hdue
          exact ⟨by simpa using hdue, fun _ => ⟨rfl, _, rfl⟩, by simp⟩
        · cases h
          rename_i hdue
          exact ⟨by simpa using hdue, by simp, fun _ => rfl⟩
      | true =>
        cases rr with
        | error e => simp [stepT] at h
        | ok ev =>
          cases ev with
          | key k =>
            simp only [stepT] at h
            split at h
            · cases h
              rename_i hdue
              exact ⟨by simpa using hdue, fun _ => ⟨rfl, _, rfl⟩, by simp⟩
            · cases h
              rename_i hdue
              exact ⟨by simpa using hdue, by simp, fun _ => rfl⟩
          | resize w ht =>
            simp only [stepT] at h
            split at h
            · cases h
              rename_i hdue
              exact ⟨by simpa using hdue, fun _ => ⟨rfl, _, rfl⟩, by simp⟩
            · cases h
              rename_i hdue
              exact ⟨by simpa using hdue, by simp, fun _ => rfl⟩
          | mouse x y =>
            simp only [stepT] at h
            split at h
            · cases h
              rename_i hdue
              exact ⟨by simpa using hdue, fun _ => ⟨rfl, _, rfl⟩, by simp⟩
            · cases h
              rename_i hdue
              exact ⟨by simpa using hdue, by simp, fun _ => rfl⟩

/-- Witness for C3: a concrete iteration (tick rate 5, `last_tick = 100`,
second clock reading 106, poll timed out with no event) in which the tick
fires and `last_tick` is reset to 107. -/
theorem run_ticked_tick_fires_when_due_witness :
    ((⟨3, 2, none, true⟩ : IterLog).ticked = true ↔ 5 ≤ 106 - 100) ∧
    ((⟨3, 2, none, true⟩ : IterLog).ticked = true →
      (⟨(1001 : Nat), 107⟩ : TState Nat).last_tick = 107 ∧
      ∃ s2, (⟨(1001 : Nat), 107⟩ : TState Nat).app = cTicked.on_tick s2) ∧
    ((⟨3, 2, none, true⟩ : IterLog).ticked = false →
      (⟨(1001 : Nat), 107⟩ : TState Nat).last_tick = 100) :=
  run_ticked_tick_fires_when_due Nat cApp cTicked 5 ⟨0, 100⟩
    ⟨Except.ok (), 103, Except.ok false, Except.ok (Event.key ⟨1⟩), 106, 107⟩
    ⟨1001, 107⟩ ⟨3, 2, none, true⟩ (by decide)

/-- C7: the interval is present exactly in ticked construction, and no later
operation changes it: a controller produced by `new` carries `tick_rate = None`
and one produced by `new_ticked d` carries `Some d`, while `run`, `run_ticked`
and `destroy_app` all return the controller with its `tick_rate` intact. -/
theorem tick_rate_mode_invariant (σ : Type) (app0 : σ) (d : Nat)
    (env : AcquireEnv) (ts : TermState) (ui : UI σ) (a : App σ) (tk : Ticked σ)
    (steps : List StepU) (tsteps : List StepT) (t0 : Nat) (renv : ReleaseEnv)
    (ts2 : TermState) :
    (∀ u, (UI.new app0 env ts).2 = Except.ok u → u.tick_rate = none) ∧
    (∀ u, (UI.new_ticked app0 d env ts).2 = Except.ok u → u.tick_rate = some d) ∧
    (UI.run ui a steps).ui.tick_rate = ui.tick_rate ∧
    (UI.run_ticked ui a tk t0 tsteps).ui.tick_rate = ui.tick_rate ∧
    (UI.destroy_app ui renv ts2).1.tick_rate = ui.tick_rate := by
  refine ⟨?_, ?_, ?_, ?_, ?_⟩
  · intro u hu
    rcases env with ⟨r, x, t⟩
    cases r <;> cases x <;> cases t <;> simp_all [UI.new]
    rw [← hu]
  · intro u hu
    rcases env with ⟨r, x, t⟩
    cases r <;> cases x <;> cases t <;> simp_all [UI.new_ticked]
    rw [← hu]
  · rcases ui with ⟨tr, app⟩
    cases tr <;> simp [UI.run]
  · rcases ui with ⟨tr, app⟩
    cases tr <;> simp [UI.run_ticked]
  · rcases renv with ⟨r, x, c⟩
    cases r <;> cases x <;> cases c <;> simp [UI.destroy_app]

/-- Witness for C7 at concrete inputs: successful `new` and `new_ticked` on
the pristine terminal yield `None` and `Some 7` respectively. -/
theorem tick_rate_mode_invariant_witness :
    (⟨none, (0 : Nat)⟩ : UI Nat).tick_rate = none ∧
    (⟨some 7, (0 : Nat)⟩ : UI Nat).tick_rate = some 7 :=
  ⟨(tick_rate_mode_invariant Nat 0 7 ⟨true, true, true⟩ ts0 ⟨none, 0⟩ cApp
      cTicked [] [] 0 ⟨true, true, true⟩ ts0).1 ⟨none, 0⟩ rfl,
   (tick_rate_mode_invariant Nat 0 7 ⟨true, true, true⟩ ts0 ⟨none, 0⟩ cApp
      cTicked [] [] 0 ⟨true, true, true⟩ ts0).2.1 ⟨some 7, 0⟩ rfl⟩

/-- C8: failing acquisition performs no rollback: if `enable_raw_mode` fails
nothing changed; if the mouse-capture/alternate-screen flush fails, raw mode
stays enabled; if `Terminal::new` fails, raw mode, mouse capture and the
alternate screen all stay in force — and in each case an `IOErr` is returned.
The same holds for `new_ticked`. -/
theorem acquire_no_rollback (σ : Type) (app0 : σ) (d : Nat) (env : AcquireEnv)
    (ts : TermState) :
    (env.raw_ok = false →
      UI.new app0 env ts = (ts, Except.error raw_err) ∧
      UI.new_ticked app0 d env ts = (ts, Except.error raw_err)) ∧
    (env.raw_ok = true → env.exec_ok = false →
      UI.new app0 env ts = ({ ts with raw_mode := true }, Except.error exec_err) ∧
      UI.new_ticked app0 d env ts
        = ({ ts with raw_mode := true }, Except.error exec_err)) ∧
    (env.raw_ok = true → env.exec_ok = true → env.term_ok = false →
      UI.new app0 env ts
        = ({ ts with
              raw_mode := true, mouse_capture := true,
              alternate_screen := true }, Except.error term_err) ∧
      UI.new_ticked app0 d env ts
        = ({ ts with
              raw_mode := true, mouse_capture := true,
              alternate_screen := true }, Except.error term_err)) := by
  rcases env with ⟨r, x, t⟩
  refine ⟨?_, ?_, ?_⟩
  · intro hr
    simp only at hr
    subst hr
    exact ⟨rfl, rfl⟩
  · intro hr hx
    simp only at hr hx
    subst hr
    subst hx
    exact ⟨rfl, rfl⟩
  · intro hr hx ht
    simp only at hr hx ht
    subst hr
    subst hx
    subst ht
    exact ⟨rfl, rfl⟩

/-- Witness for C8: with raw mode succeeding and the flush failing, the
pristine terminal is left with raw mode enabled and the error reported. -/
theorem acquire_no_rollback_witness :
    UI.new (0 : Nat) ⟨true, false, true⟩ ts0
      = ({ ts0 with raw_mode := true }, Except.error exec_err) ∧
    UI.new_ticked (0 : Nat) 7 ⟨true, false, true⟩ ts0
      = ({ ts0 with raw_mode := true }, Except.error exec_err) :=
  (acquire_no_rollback Nat 0 7 ⟨true, false, true⟩ ts0).2.1 rfl rfl

/-- C9: acquiring a session with `new` and releasing it with `destroy_app`,
both succeeding, restores the pre-acquisition terminal state exactly —
provided that state was the standard one (cooked mode, no mouse reporting,
primary screen, visible cursor), release undoes every effect acquire
applied. -/
theorem session_acquire_release_round_trip (σ : Type) (app0 : σ)
    (aenv : AcquireEnv) (renv : ReleaseEnv) (ts : TermState)
    (ha1 : aenv.raw_ok = true) (ha2 : aenv.exec_ok = true)
    (ha3 : aenv.term_ok = true) (hr1 : renv.raw_ok = true)
    (hr2 : renv.exec_ok = true) (hr3 : renv.cursor_ok = true)
    (h1 : ts.raw_mode = false) (h2 : ts.mouse_capture = false)
    (h3 : ts.alternate_screen = false) (h4 : ts.cursor_visible = true) :
    ∃ u : UI σ, (UI.new app0 aenv ts).2 = Except.ok u ∧
      (UI.destroy_app u renv (UI.new app0 aenv ts).1).2.1 = ts ∧
      (UI.destroy_app u renv (UI.new app0 aenv ts).1).2.2 = Except.ok () := by
  rcases aenv with ⟨ar, ax, at_⟩
  rcases renv with ⟨rr, rx, rc⟩
  rcases ts with ⟨m1, m2, m3, m4⟩
  simp only at ha1 ha2 ha3 hr1 hr2 hr3 h1 h2 h3 h4
  subst ha1; subst ha2; subst ha3; subst hr1; subst hr2; subst hr3
  subst h1; subst h2; subst h3; subst h4
  exact ⟨⟨none, app0⟩, rfl, rfl, rfl⟩

/-- Witness for C9: the round trip on the pristine terminal with every step
succeeding. -/
theorem session_acquire_release_round_trip_witness :
    ∃ u : UI Nat, (UI.new (0 : Nat) ⟨true, true, true⟩ ts0).2 = Except.ok u ∧
      (UI.destroy_app u ⟨true, true, true⟩
        (UI.new (0 : Nat) ⟨true, true, true⟩ ts0).1).2.1 = ts0 ∧
      (UI.destroy_app u ⟨true, true, true⟩
        (UI.new (0 : Nat) ⟨true, true, true⟩ ts0).1).2.2 = Except.ok () :=
  session_acquire_release_round_trip Nat 0 ⟨true, true, true⟩ ⟨true, true, true⟩
    ts0 rfl rfl rfl rfl rfl rfl rfl rfl rfl rfl

/-- Auxiliary: on event streams containing only key events, the src/lib.rs
and src/ui.rs unticked loops agree componentwise, for applications whose
handlers agree on key events. -/
theorem runLoop_impls_agree (a : App σ) (a2 : AppRs σ)
    (hdraw : ∀ s, a2.draw s = a.draw s)
    (hinput : ∀ s k, a2.on_input_received s (Event.key k) = a.on_input_received s k)
    (hclosed : ∀ s, a2.is_closed s = a.is_closed s) :
    ∀ (steps : List StepU) (s : σ),
      (∀ step ∈ steps, ∀ ev, step.readRes = Except.ok ev → ∃ k, ev = Event.key k) →
      (runLoopU a steps s).status = (UiRs.runLoopRs a2 steps s).status ∧
      (runLoopU a steps s).app = (UiRs.runLoopRs a2 steps s).app ∧
      List.map Event.key (runLoopU a steps s).dispatched
        = (UiRs.runLoopRs a2 steps s).dispatched ∧
      (runLoopU a steps s).draws = (UiRs.runLoopRs a2 steps s).draws ∧
      (runLoopU a steps s).reads = (UiRs.runLoopRs a2 steps s).reads := by
  intro steps
  induction steps with
  | nil =>
    intro s _
    rw [runLoopU.eq_def, UiRs.runLoopRs.eq_def, hclosed s]
    cases h : a.is_closed s <;> simp [h]
  | cons step rest ih =>
    intro s hkeys
    have hkrest : ∀ st ∈ rest, ∀ ev, st.readRes = Except.ok ev →
        ∃ k, ev = Event.key k :=
      fun st hst => hkeys st (List.mem_cons_of_mem _ hst)
    rcases step with ⟨dr, rr⟩
    rw [runLoopU.eq_def, UiRs.runLoopRs.eq_def, hclosed s]
    cases h : a.is_closed s with
    | true => simp [h]
    | false =>
      simp only [h, Bool.false_eq_true, if_false]
      cases dr with
      | error e => simp
      | ok u =>
        cases rr with
        | error e => simp [hdraw s]
        | ok ev =>
          obtain ⟨k, hk⟩ :=
            hkeys ⟨Except.ok u, Except.ok ev⟩ (List.mem_cons_self _ _) ev rfl
          subst hk
          have hstate : a2.on_input_received (a2.draw s) (Event.key k)
              = a.on_input_received (a.draw s) k := by
            rw [hdraw s, hinput]
          obtain ⟨h1, h2, h3, h4, h5⟩ := ih (a.on_input_received (a.draw s) k) hkrest
          simp only [hstate]
          exact ⟨h1, h2, by simpa using h3, by simpa using h4, by simpa using h5⟩

/-- C10 (amended): the two unticked run implementations are not equivalent in
general (see the counterexample), but they do agree — same status, same final
controller, same dispatched events up to the `Event::Key` wrapper, same draw
count, same reads — for applications whose handlers agree on key events
whenever every event the environment delivers is a key event. -/
theorem run_impls_agree_on_key_only_streams (σ : Type) (a : App σ)
    (a2 : AppRs σ) (hdraw : ∀ s, a2.draw s = a.draw s)
    (hinput : ∀ s k, a2.on_input_received s (Event.key k) = a.on_input_received s k)
    (hclosed : ∀ s, a2.is_closed s = a.is_closed s) (ui : UI σ)
    (steps : List StepU)
    (hkeys : ∀ step ∈ steps, ∀ ev, step.readRes = Except.ok ev →
      ∃ k, ev = Event.key k) :
    (UI.run ui a steps).status = (UiRs.run ui a2 steps).status ∧
    (UI.run ui a steps).ui = (UiRs.run ui a2 steps).ui ∧
    List.map Event.key (UI.run ui a steps).dispatched
      = (UiRs.run ui a2 steps).dispatched ∧
    (UI.run ui a steps).draws = (UiRs.run ui a2 steps).draws ∧
    (UI.run ui a steps).reads = (UiRs.run ui a2 steps).reads := by
  rcases ui with ⟨tr, app⟩
  cases tr with
  | some d => simp [UI.run, UiRs.run]
  | none =>
    obtain ⟨h1, h2, h3, h4, h5⟩ :=
      runLoop_impls_agree a a2 hdraw hinput hclosed steps app hkeys
    simp only [UI.run, UiRs.run]
    exact ⟨h1, by simp [h2], h3, h4, h5⟩

/-- Counterexample for C10 as stated: `ceApp` and `ceAppRs` are the same
application (identical draw, closed flag, and input handling on key events),
yet on an environment delivering a single resize event the src/lib.rs loop
dispatches nothing while the src/ui.rs loop forwards the resize event to
`on_input_received`, so the two implementations do not dispatch the same
events. -/
theorem run_impls_not_equivalent :
    ¬ (List.map Event.key (UI.run ceUi ceApp ceSteps).dispatched
        = (UiRs.run ceUi ceAppRs ceSteps).dispatched ∧
      (UI.run ceUi ceApp ceSteps).status = (UiRs.run ceUi ceAppRs ceSteps).status) := by
  decide

/-- Witness for the amended C10: on a single key event, both implementations
produce the same outcome for the corresponding applications. -/
theorem run_impls_agree_on_key_only_streams_witness :
    (UI.run ceUi ceApp ceKeySteps).status = (UiRs.run ceUi ceAppRs ceKeySteps).status ∧
    (UI.run ceUi ceApp ceKeySteps).ui = (UiRs.run ceUi ceAppRs ceKeySteps).ui ∧
    List.map Event.key (UI.run ceUi ceApp ceKeySteps).dispatched
      = (UiRs.run ceUi ceAppRs ceKeySteps).dispatched ∧
    (UI.run ceUi ceApp ceKeySteps).draws = (UiRs.run ceUi ceAppRs ceKeySteps).draws ∧
    (UI.run ceUi ceApp ceKeySteps).reads = (UiRs.run ceUi ceAppRs ceKeySteps).reads :=
  run_impls_agree_on_key_only_streams Bool ceApp ceAppRs (fun _ => rfl)
    (fun _ _ => rfl) (fun _ => rfl) ceUi ceKeySteps (by
      intro step hstep ev hev
      simp only [ceKeySteps, List.mem_singleton] at hstep
      subst hstep
      injection hev with hv
      exact ⟨⟨3⟩, hv.symm⟩)

end TuiWrapper
